import Mathlib

/-!
Shallow embedding of `src/voice_controller.py`, a voice-command controller
that maps transcribed speech to short command codes and reports the outcome
of delivering each code to a fixed HTTP endpoint.

Strings are modelled as `List Char`.  The Python string operations used by
the source (`lower`, `strip`, substring containment via `in`) are embedded
below; `COMMAND_MAP`, `parse_command`, `process_speech`, `send_command` and
`listen_loop` are translated from the source file, with line references in
the doc comments.
-/

namespace VC

/-- Embedding of the Python substring test: `startsWith pat l` holds when
`pat` is an initial segment of `l`. -/
def startsWith : List Char → List Char → Bool
  | [], _ => true
  | _ :: _, [] => false
  | a :: pat, b :: l => a == b && startsWith pat l

/-- Embedding of the Python containment test `needle in text`:
`needle` occurs as a contiguous run inside `text` (the empty needle occurs
in every text, as in Python). -/
def containsSub : List Char → List Char → Bool
  | needle, [] => startsWith needle []
  | needle, c :: rest => startsWith needle (c :: rest) || containsSub needle rest

/-- The ASCII whitespace characters removed by the Python `str.strip()`
used in `parse_command`. -/
def isPySpace (c : Char) : Bool :=
  c == ' ' || c == '\t' || c == '\n' || c == '\r' || c == '\x0b' || c == '\x0c'

/-- Embedding of Python `str.lower()` (ASCII case folding, as in
`Char.toLower`). -/
def lowerL (s : List Char) : List Char := s.map Char.toLower

/-- Embedding of Python `str.strip()`: remove leading and trailing
whitespace. -/
def stripL (s : List Char) : List Char :=
  (((s.dropWhile isPySpace).reverse.dropWhile isPySpace).reverse)

/-- The normalisation `text.lower().strip()` performed at the top of
`parse_command` (line 473 of the source). -/
def normalize (s : List Char) : List Char := stripL (lowerL s)

/-- `ESP_IP` configuration constant, line 16 of the source. -/
def ESP_IP : List Char := "192.168.10.193".data

/-- `TIMEOUT` configuration constant (seconds), line 17 of the source. -/
def TIMEOUT : Nat := 2

/-- `COMMAND_MAP`, lines 20-28 of the source: an insertion-ordered mapping
from voice phrase to numeric command code. -/
def COMMAND_MAP : List (List Char × List Char) :=
  [("increase oxygen".data, "1".data),
   ("decrease oxygen".data, "2".data),
   ("alarm on".data, "1".data),
   ("alarm off".data, "2".data),
   ("mute alarm".data, "2".data),
   ("critical mode".data, "1".data),
   ("reset".data, "2".data)]

/-- The first hard-coded condition of `parse_command` (lines 477-479):
increase blood flow and its variants. -/
def bloodIncrease (t : List Char) : Bool :=
  containsSub "increase blood flow".data t ||
    (containsSub "increase".data t && containsSub "flow".data t) ||
    containsSub "more blood".data t

/-- The second hard-coded condition of `parse_command` (lines 483-485):
decrease blood flow and its variants. -/
def bloodDecrease (t : List Char) : Bool :=
  containsSub "decrease blood flow".data t ||
    (containsSub "decrease".data t && containsSub "flow".data t) ||
    containsSub "reduce blood".data t

/-- The scan of `COMMAND_MAP` in `parse_command` (lines 489-491): return
the code of the first entry whose phrase occurs in the text. -/
def lookupMap : List (List Char × List Char) → List Char → Option (List Char)
  | [], _ => none
  | (phrase, code) :: rest, t =>
    if containsSub phrase t then some code else lookupMap rest t

/-- Body of `parse_command` after normalisation (lines 475-493). -/
def parseCore (t : List Char) : Option (List Char) :=
  if bloodIncrease t then some "1".data
  else if bloodDecrease t then some "2".data
  else lookupMap COMMAND_MAP t

/-- `VoiceControllerApp.parse_command`, lines 471-493 of the source: lower
and strip the text, test the hard-coded blood-flow rules, then scan
`COMMAND_MAP`; `none` models the Python `None`. -/
def parse_command (text : List Char) : Option (List Char) :=
  parseCore (normalize text)

/-- Observable actions of the speech-processing path: a log entry with a
level and a message, or an HTTP command sent to the device. -/
inductive SpeechAction : Type
  | log (level : List Char) (msg : List Char)
  | send (code : List Char)
deriving DecidableEq

/-- The warning logged by `process_speech` when no command matches
(line 469 of the source). -/
def unknownCommandMsg : List Char := "Unknown command - no action taken".data

/-- The `PARSED` log message of `process_speech` (line 466 of the source). -/
def parsedMsg (code : List Char) : List Char :=
  "Command mapped to code: ".data ++ code

/-- `VoiceControllerApp.process_speech`, lines 456-469 of the source, as the
list of actions it performs on a recognised text: log the heard text, then
either log the parsed code and send it, or log a warning and send nothing.
The Python `if command_code:` is truthiness, so an empty-string code would
also take the warning branch. -/
def process_speech (text : List Char) : List SpeechAction :=
  SpeechAction.log "HEARD".data text ::
    (match parse_command text with
     | some code =>
       if code.isEmpty then [SpeechAction.log "WARN".data unknownCommandMsg]
       else [SpeechAction.log "PARSED".data (parsedMsg code), SpeechAction.send code]
     | none => [SpeechAction.log "WARN".data unknownCommandMsg])

/-- Outcome of the HTTP GET issued by `send_command`: a status code, or one
of the exceptions caught by the source (lines 506-521). -/
inductive HttpOutcome : Type
  | response (statusCode : Nat)
  | connectionFailure
  | timedOut
  | otherError (msg : List Char)

/-- Observable effects of the sending path: a log entry, or an update of the
connection-status indicator (status text and colour). -/
inductive SendEffect : Type
  | log (level : List Char) (msg : List Char)
  | setEspStatus (status : List Char) (color : List Char)
deriving DecidableEq

/-- The `SENT` log message of `send_command` (line 505 of the source). -/
def sendingMsg (value : List Char) : List Char :=
  "Sending command ".data ++ value ++ " to ESP...".data

/-- Connection-failure message, line 515 of the source. -/
def connFailMsg : List Char := "Cannot connect to ESP - check IP and WiFi".data

/-- Timeout message, line 518 of the source. -/
def timeoutMsg : List Char := "ESP request timeout".data

/-- Generic request-failure message, line 521 of the source. -/
def requestFailMsg (e : List Char) : List Char := "Request failed: ".data ++ e

/-- `VoiceControllerApp.send_command`, lines 499-524 of the source, as a
function from the HTTP outcome to the effects performed: the `SENT` log
always happens first; a 200 response logs `OK` and marks the device
connected; any other status logs a warning only; each caught exception
logs a distinct error message, and connection failure and timeout set
distinct status values. -/
def send_request (value : List Char) (outcome : HttpOutcome) : List SendEffect :=
  SendEffect.log "SENT".data (sendingMsg value) ::
    (match outcome with
     | HttpOutcome.response statusCode =>
       if statusCode = 200 then
         [SendEffect.log "OK".data "ESP acknowledged command".data,
          SendEffect.setEspStatus "Connected".data "#28a745".data]
       else
         [SendEffect.log "WARN".data
            ("ESP returned status ".data ++ (Nat.repr statusCode).data)]
     | HttpOutcome.connectionFailure =>
       [SendEffect.log "ERROR".data connFailMsg,
        SendEffect.setEspStatus "Not Connected".data "#dc3545".data]
     | HttpOutcome.timedOut =>
       [SendEffect.log "ERROR".data timeoutMsg,
        SendEffect.setEspStatus "Timeout".data "#ffc107".data]
     | HttpOutcome.otherError e =>
       [SendEffect.log "ERROR".data (requestFailMsg e)])

/-- What one iteration of `listen_loop` observes: recognised text, the
`UnknownValueError` and `RequestError` exceptions of the recogniser, the
`WaitTimeoutError` of `listen`, or any other exception. -/
inductive ListenEvent : Type
  | recognized (text : List Char)
  | unintelligible
  | serviceError (msg : List Char)
  | waitTimeout
  | otherFailure (msg : List Char)

/-- Whether the loop proceeds to its next iteration or terminates. -/
inductive LoopOutcome : Type
  | cont
  | halt
deriving DecidableEq

/-- One iteration of `VoiceControllerApp.listen_loop`, lines 435-454 of the
source: if the listening flag is clear the while-condition fails and the
loop ends; otherwise recognised text is processed, `UnknownValueError` and
`RequestError` are logged and the loop continues, `WaitTimeoutError`
continues silently, and any other exception is logged and breaks the
loop. -/
def listen_step (listening : Bool) (ev : ListenEvent) :
    LoopOutcome × List SpeechAction :=
  if listening then
    match ev with
    | ListenEvent.recognized t => (LoopOutcome.cont, process_speech t)
    | ListenEvent.unintelligible =>
      (LoopOutcome.cont,
       [SpeechAction.log "WARN".data "Could not understand audio".data])
    | ListenEvent.serviceError m =>
      (LoopOutcome.cont,
       [SpeechAction.log "ERROR".data ("Speech recognition error: ".data ++ m)])
    | ListenEvent.waitTimeout => (LoopOutcome.cont, [])
    | ListenEvent.otherFailure m =>
      (LoopOutcome.halt,
       [SpeechAction.log "ERROR".data ("Listening error: ".data ++ m)])
  else (LoopOutcome.halt, [])

/-- The code sent by `set_normal_mode` (line 544 of the source). -/
def normal_mode_code : List Char := "0".data

/-- The code sent by `set_critical_mode` (line 550 of the source). -/
def critical_mode_code : List Char := "5".data

/-- The URL built by `send_command` (line 501 of the source). -/
def commandUrl (code : List Char) : List Char :=
  "http://".data ++ ESP_IP ++ "/".data ++ code

/-- Result of handling one line of input in the manual-controller variant. -/
inductive ManualResult : Type
  | quit
  | sendTo (code : List Char)
  | reject
deriving DecidableEq

/-- Modelled from the spec: the manual-controller entry point is not among
the source files; per the spec it reads a line from standard input, quits
on `q`, validates only that the input is numeric, and forwards it unchanged
to the same kind of endpoint with no lookup in any phrase table. -/
def manual_handle (line : List Char) : ManualResult :=
  if line = "q".data then ManualResult.quit
  else if line.all Char.isDigit && !line.isEmpty then ManualResult.sendTo line
  else ManualResult.reject

/-- Spec-side rule list for `parse_command`, following the design note of
the spec: an ordered list of (predicate, code) pairs, the two hard-coded
blood-flow rules first and then the `COMMAND_MAP` entries in insertion
order, evaluated in priority order. -/
def specRules : List ((List Char → Bool) × List Char) :=
  (bloodIncrease, "1".data) :: (bloodDecrease, "2".data) ::
    COMMAND_MAP.map (fun pc => (containsSub pc.1, pc.2))

/-- Spec-side evaluation of an ordered rule list: the first rule whose
predicate holds determines the code. -/
def firstMatch : List ((List Char → Bool) × List Char) → List Char → Option (List Char)
  | [], _ => none
  | (p, code) :: rest, t => if p t then some code else firstMatch rest t

/-! ### Helper lemmas -/

theorem dropWhile_all {p : Char → Bool} {ws : List Char}
    (h : ∀ c ∈ ws, p c = true) : ws.dropWhile p = [] := by
  induction ws with
  | nil => rfl
  | cons c rest ih =>
    rw [List.dropWhile_cons_of_pos (h c (by simp))]
    exact ih fun d hd => h d (by simp [hd])

theorem toLower_of_space {c : Char} (h : isPySpace c = true) :
    Char.toLower c = c := by
  simp only [isPySpace, Bool.or_eq_true, beq_iff_eq] at h
  rcases h with ⟨⟨⟨⟨h | h⟩ | h⟩ | h⟩ | h⟩ | h <;> subst h <;> decide

theorem lowerL_of_space {ws : List Char}
    (h : ∀ c ∈ ws, isPySpace c = true) : lowerL ws = ws := by
  induction ws with
  | nil => rfl
  | cons c rest ih =>
    simp only [lowerL, List.map_cons]
    rw [toLower_of_space (h c (by simp))]
    have := ih fun d hd => h d (by simp [hd])
    simp only [lowerL] at this
    rw [this]

theorem stripL_space_left {ws a : List Char}
    (h : ∀ c ∈ ws, isPySpace c = true) : stripL (ws ++ a) = stripL a := by
  unfold stripL
  rw [List.dropWhile_append_of_pos (by simpa using h)]

theorem stripL_space_right {ws a : List Char}
    (h : ∀ c ∈ ws, isPySpace c = true) : stripL (a ++ ws) = stripL a := by
  unfold stripL
  rw [List.dropWhile_append]
  by_cases he : (a.dropWhile isPySpace).isEmpty
  · rw [if_pos he]
    rw [dropWhile_all h]
    rw [List.isEmpty_iff] at he
    rw [he]
  · rw [if_neg he]
    rw [List.reverse_append]
    rw [List.dropWhile_append_of_pos (by simp only [List.mem_reverse]; simpa using h)]

theorem normalize_pad {ws1 s ws2 : List Char}
    (h1 : ∀ c ∈ ws1, isPySpace c = true) (h2 : ∀ c ∈ ws2, isPySpace c = true) :
    normalize (ws1 ++ s ++ ws2) = normalize s := by
  unfold normalize
  simp only [lowerL, List.map_append]
  have e1 : List.map Char.toLower ws1 = ws1 := lowerL_of_space h1
  have e2 : List.map Char.toLower ws2 = ws2 := lowerL_of_space h2
  rw [e1, e2, stripL_space_right h2, stripL_space_left h1]

theorem lookupMap_eq_none {m : List (List Char × List Char)} {t : List Char}
    (h : ∀ pc ∈ m, containsSub pc.1 t = false) : lookupMap m t = none := by
  induction m with
  | nil => rfl
  | cons pc rest ih =>
    obtain ⟨phrase, code⟩ := pc
    rw [lookupMap]
    rw [if_neg (by simp [h (phrase, code) (by simp)])]
    exact ih fun pc hpc => h pc (by simp [hpc])

theorem lookupMap_mem {m : List (List Char × List Char)} {t c : List Char}
    (h : lookupMap m t = some c) : ∃ pc ∈ m, pc.2 = c := by
  induction m with
  | nil => simp [lookupMap] at h
  | cons pc rest ih =>
    obtain ⟨phrase, code⟩ := pc
    rw [lookupMap] at h
    by_cases hc : containsSub phrase t = true
    · rw [if_pos hc] at h
      exact ⟨(phrase, code), by simp, by injection h⟩
    · rw [if_neg hc] at h
      obtain ⟨pc, hmem, hcode⟩ := ih h
      exact ⟨pc, by simp [hmem], hcode⟩

theorem lookupMap_eq_firstMatch (m : List (List Char × List Char)) (t : List Char) :
    lookupMap m t = firstMatch (m.map fun pc => (containsSub pc.1, pc.2)) t := by
  induction m with
  | nil => rfl
  | cons pc rest ih =>
    obtain ⟨phrase, code⟩ := pc
    rw [lookupMap, List.map_cons, firstMatch]
    by_cases hc : containsSub phrase t = true
    · rw [if_pos hc, if_pos hc]
    · rw [if_neg hc, if_neg hc, ih]

theorem parse_eq_firstMatch (s : List Char) :
    parse_command s = firstMatch specRules (normalize s) := by
  rw [parse_command, parseCore, specRules, firstMatch, firstMatch,
    lookupMap_eq_firstMatch]

/-! ### Claim theorems -/

/-- Claim C1: parse_command is case-insensitive (its result depends on the
input only through its lowercase image) and whitespace-insensitive
(leading and trailing whitespace never change the result), and it maps the
listed phrases to their stated codes. -/
theorem C1_parse_case_whitespace_insensitive :
    (∀ s t : List Char, lowerL s = lowerL t → parse_command s = parse_command t) ∧
    (∀ ws1 s ws2 : List Char, (∀ c ∈ ws1, isPySpace c = true) →
      (∀ c ∈ ws2, isPySpace c = true) →
      parse_command (ws1 ++ s ++ ws2) = parse_command s) ∧
    parse_command "INCREASE BLOOD FLOW".data = some "1".data ∧
    parse_command " increase blood flow ".data = some "1".data ∧
    parse_command "increase blood flow".data = some "1".data ∧
    parse_command "decrease blood flow".data = some "2".data ∧
    parse_command "more blood".data = some "1".data ∧
    parse_command "reduce blood".data = some "2".data := by
  refine ⟨?_, ?_, by decide, by decide, by decide, by decide, by decide, by decide⟩
  · intro s t h
    unfold parse_command normalize
    rw [h]
  · intro ws1 s ws2 h1 h2
    unfold parse_command
    rw [normalize_pad h1 h2]

theorem C1_witness :
    parse_command (" ".data ++ "more blood".data ++ "\t".data) =
      parse_command "more blood".data :=
  C1_parse_case_whitespace_insensitive.2.1 " ".data "more blood".data "\t".data
    (by decide) (by decide)

/-- Claim C3: parse_command refines an ordered rule list, the two
hard-coded blood-flow rules first, then the COMMAND_MAP entries in
insertion order; the first matching rule determines the result. -/
theorem C3_priority_order (s : List Char) :
    parse_command s = firstMatch specRules (normalize s) :=
  parse_eq_firstMatch s

/-- Claim C9: parse_command is deterministic and stateless: two invocations
on equal input strings return equal results, and the result is a pure
function of the normalised input text alone. -/
theorem C9_parse_pure :
    (∀ s t : List Char, s = t → parse_command s = parse_command t) ∧
    (∀ s : List Char, parse_command s = parseCore (normalize s)) :=
  ⟨fun _ _ h => h ▸ rfl, fun _ => rfl⟩

theorem C9_witness :
    parse_command "alarm on".data = parse_command "alarm on".data :=
  C9_parse_pure.1 "alarm on".data "alarm on".data rfl

/-- Claim C10: every result of parse_command is None, code 1 or code 2; in
particular it never returns the normal-mode code 0 or the critical-mode
code 5 that only the mode buttons send. -/
theorem C10_parse_range (s : List Char) :
    (parse_command s = none ∨ parse_command s = some "1".data ∨
      parse_command s = some "2".data) ∧
    parse_command s ≠ some normal_mode_code ∧
    parse_command s ≠ some critical_mode_code := by
  have key : parse_command s = none ∨ parse_command s = some "1".data ∨
      parse_command s = some "2".data := by
    unfold parse_command parseCore
    by_cases h1 : bloodIncrease (normalize s) = true
    · rw [if_pos h1]; exact Or.inr (Or.inl rfl)
    · rw [if_neg h1]
      by_cases h2 : bloodDecrease (normalize s) = true
      · rw [if_pos h2]; exact Or.inr (Or.inr rfl)
      · rw [if_neg h2]
        cases h : lookupMap COMMAND_MAP (normalize s) with
        | none => exact Or.inl rfl
        | some c =>
          obtain ⟨pc, hmem, hcode⟩ := lookupMap_mem h
          have hall : ∀ pc ∈ COMMAND_MAP,
              pc.2 = "1".data ∨ pc.2 = "2".data := by decide
          rcases hall pc hmem with h12 | h12
          · exact Or.inr (Or.inl (by rw [← hcode, h12]))
          · exact Or.inr (Or.inr (by rw [← hcode, h12]))
  refine ⟨key, ?_, ?_⟩ <;>
    rcases key with h | h | h <;> rw [h] <;> decide

theorem C10_witness :
    parse_command "alarm off".data = none ∨
      parse_command "alarm off".data = some "1".data ∨
      parse_command "alarm off".data = some "2".data :=
  (C10_parse_range "alarm off".data).1

/-- Claim C2, counterexample: the input contains the substring alarm on yet
parse_command returns code 2, because the higher-priority decrease-blood
rule matches first. -/
theorem C2_counterexample :
    containsSub "alarm on".data "reduce blood alarm on".data = true ∧
    parse_command "reduce blood alarm on".data = some "2".data ∧
    some "2".data ≠ some "1".data := by decide

/-- Claim C2 as amended: an input whose normalised text contains alarm on
parses to code 1 provided no higher-priority rule yielding a different
code matches (the decrease-blood-flow rule, the decrease oxygen entry);
likewise alarm off and mute alarm yield code 2 provided the
increase-blood-flow rule, the increase oxygen entry and the alarm on entry
do not match. -/
theorem C2_alarm_phrases (s : List Char) :
    (containsSub "alarm on".data (normalize s) = true →
     bloodDecrease (normalize s) = false →
     containsSub "decrease oxygen".data (normalize s) = false →
     parse_command s = some "1".data) ∧
    (containsSub "alarm off".data (normalize s) = true →
     bloodIncrease (normalize s) = false →
     containsSub "increase oxygen".data (normalize s) = false →
     containsSub "alarm on".data (normalize s) = false →
     parse_command s = some "2".data) ∧
    (containsSub "mute alarm".data (normalize s) = true →
     bloodIncrease (normalize s) = false →
     containsSub "increase oxygen".data (normalize s) = false →
     containsSub "alarm on".data (normalize s) = false →
     parse_command s = some "2".data) := by
  refine ⟨?_, ?_, ?_⟩
  · intro hon hbd hdo
    unfold parse_command parseCore
    by_cases hbi : bloodIncrease (normalize s) = true
    · rw [if_pos hbi]
    · rw [if_neg hbi, if_neg (by simp [hbd])]
      simp only [COMMAND_MAP, lookupMap]
      by_cases hio : containsSub "increase oxygen".data (normalize s) = true
      · rw [if_pos hio]
      · rw [if_neg hio, if_neg (by simp [hdo]), if_pos hon]
  · intro hoff hbi hio hon
    unfold parse_command parseCore
    rw [if_neg (by simp [hbi])]
    by_cases hbd : bloodDecrease (normalize s) = true
    · rw [if_pos hbd]
    · rw [if_neg hbd]
      simp only [COMMAND_MAP, lookupMap]
      rw [if_neg (by simp [hio])]
      by_cases hdo : containsSub "decrease oxygen".data (normalize s) = true
      · rw [if_pos hdo]
      · rw [if_neg hdo, if_neg (by simp [hon]), if_pos hoff]
  · intro hma hbi hio hon
    unfold parse_command parseCore
    rw [if_neg (by simp [hbi])]
    by_cases hbd : bloodDecrease (normalize s) = true
    · rw [if_pos hbd]
    · rw [if_neg hbd]
      simp only [COMMAND_MAP, lookupMap]
      rw [if_neg (by simp [hio])]
      by_cases hdo : containsSub "decrease oxygen".data (normalize s) = true
      · rw [if_pos hdo]
      · rw [if_neg hdo, if_neg (by simp [hon])]
        by_cases hoff : containsSub "alarm off".data (normalize s) = true
        · rw [if_pos hoff]
        · rw [if_neg hoff, if_pos hma]

theorem C2_witness :
    parse_command "set alarm on".data = some "1".data :=
  (C2_alarm_phrases "set alarm on".data).1 (by decide) (by decide) (by decide)

/-- Claim C4: an input matching no hard-coded rule and no COMMAND_MAP entry
parses to none (the embedding is a total function, so no exception), and
process_speech then only logs the heard text and an unknown-command
warning: no send action is issued. -/
theorem C4_no_match (s : List Char)
    (h1 : bloodIncrease (normalize s) = false)
    (h2 : bloodDecrease (normalize s) = false)
    (h3 : ∀ pc ∈ COMMAND_MAP, containsSub pc.1 (normalize s) = false) :
    parse_command s = none ∧
    process_speech s =
      [SpeechAction.log "HEARD".data s,
       SpeechAction.log "WARN".data unknownCommandMsg] := by
  have hp : parse_command s = none := by
    unfold parse_command parseCore
    rw [if_neg (by simp [h1]), if_neg (by simp [h2])]
    exact lookupMap_eq_none h3
  refine ⟨hp, ?_⟩
  unfold process_speech
  rw [hp]

theorem C4_witness :
    parse_command "hello there".data = none ∧
    process_speech "hello there".data =
      [SpeechAction.log "HEARD".data "hello there".data,
       SpeechAction.log "WARN".data unknownCommandMsg] :=
  C4_no_match "hello there".data (by decide) (by decide) (by decide)

/-- Claim C5: a 200 response is acknowledged: send_command logs OK and sets
the connection status to Connected; any non-200 status only logs a
warning, with no failure effect and no status change. -/
theorem C5_status_classification (v : List Char) :
    send_request v (HttpOutcome.response 200) =
      [SendEffect.log "SENT".data (sendingMsg v),
       SendEffect.log "OK".data "ESP acknowledged command".data,
       SendEffect.setEspStatus "Connected".data "#28a745".data] ∧
    ∀ n : Nat, n ≠ 200 →
      send_request v (HttpOutcome.response n) =
        [SendEffect.log "SENT".data (sendingMsg v),
         SendEffect.log "WARN".data
           ("ESP returned status ".data ++ (Nat.repr n).data)] := by
  refine ⟨rfl, fun n hn => ?_⟩
  simp [send_request, hn]

theorem C5_witness :
    send_request "1".data (HttpOutcome.response 404) =
      [SendEffect.log "SENT".data (sendingMsg "1".data),
       SendEffect.log "WARN".data
         ("ESP returned status ".data ++ (Nat.repr 404).data)] :=
  (C5_status_classification "1".data).2 404 (by decide)

/-- Claim C6: each delivery failure of send_command is reported and never
escapes the send boundary (the embedding handles every outcome): a
connection failure logs its own error and sets status Not Connected, a
timeout logs its own error and sets status Timeout, a generic exception
logs its own error; the three messages are pairwise distinct and the two
status values are distinct. -/
theorem C6_failure_reporting (v : List Char) :
    send_request v HttpOutcome.connectionFailure =
      [SendEffect.log "SENT".data (sendingMsg v),
       SendEffect.log "ERROR".data connFailMsg,
       SendEffect.setEspStatus "Not Connected".data "#dc3545".data] ∧
    send_request v HttpOutcome.timedOut =
      [SendEffect.log "SENT".data (sendingMsg v),
       SendEffect.log "ERROR".data timeoutMsg,
       SendEffect.setEspStatus "Timeout".data "#ffc107".data] ∧
    (∀ e, send_request v (HttpOutcome.otherError e) =
      [SendEffect.log "SENT".data (sendingMsg v),
       SendEffect.log "ERROR".data (requestFailMsg e)]) ∧
    connFailMsg ≠ timeoutMsg ∧
    (∀ e, requestFailMsg e ≠ connFailMsg ∧ requestFailMsg e ≠ timeoutMsg) ∧
    "Not Connected".data ≠ "Timeout".data := by
  refine ⟨rfl, rfl, fun e => rfl, by decide, fun e => ⟨?_, ?_⟩, by decide⟩
  · intro h
    have h2 : some 'R' = some 'C' := congrArg List.head? h
    exact absurd (Option.some.inj h2) (by decide)
  · intro h
    have h2 : some 'R' = some 'E' := congrArg List.head? h
    exact absurd (Option.some.inj h2) (by decide)

theorem C6_witness :
    send_request "1".data HttpOutcome.connectionFailure =
      [SendEffect.log "SENT".data (sendingMsg "1".data),
       SendEffect.log "ERROR".data connFailMsg,
       SendEffect.setEspStatus "Not Connected".data "#dc3545".data] :=
  (C6_failure_reporting "1".data).1

/-- Claim C7: one iteration of the capture loop: with the listening flag
set, a wait timeout, unintelligible audio or a recognition-service error
all continue the loop, recognised text continues the loop, and any other
exception halts it; with the flag clear the loop ends. -/
theorem C7_loop_fatality :
    (listen_step true ListenEvent.waitTimeout).1 = LoopOutcome.cont ∧
    (listen_step true ListenEvent.unintelligible).1 = LoopOutcome.cont ∧
    (∀ m, (listen_step true (ListenEvent.serviceError m)).1 = LoopOutcome.cont) ∧
    (∀ t, (listen_step true (ListenEvent.recognized t)).1 = LoopOutcome.cont) ∧
    (∀ m, (listen_step true (ListenEvent.otherFailure m)).1 = LoopOutcome.halt) ∧
    (∀ ev, (listen_step false ev).1 = LoopOutcome.halt) :=
  ⟨rfl, rfl, fun _ => rfl, fun _ => rfl, fun _ => rfl, fun _ => rfl⟩

/-- Claim C8: the manual-controller variant forwards the numeric input 3
unchanged (to the URL built from the fixed address), although 3 is not a
code of any COMMAND_MAP entry: the sender does not validate table
membership. -/
theorem C8_manual_forwarding :
    manual_handle "3".data = ManualResult.sendTo "3".data ∧
    commandUrl "3".data = "http://192.168.10.193/3".data ∧
    (∀ pc ∈ COMMAND_MAP, pc.2 ≠ "3".data) := by decide

theorem C8_witness :
    ("increase oxygen".data, "1".data).2 ≠ "3".data :=
  C8_manual_forwarding.2.2 ("increase oxygen".data, "1".data) (by decide)

end VC
